import Mathlib

set_option maxHeartbeats 1000000

/-!
Shallow embedding of go-openai's multipart form construction: the image
endpoints (`CreateVariImage`, `CreateEditImage`) and the `DefaultFormBuilder`
(`detectMimeType`, `CreateFormFileReader`, `CreateFormFileReaderWithMimeType`,
`createFormFile`, `WriteField`), together with models of the Go standard
library routines they call: `net/http.DetectContentType`,
`path/filepath.Base` (unix), and the quote escaping shared with
`mime/multipart`.

Go byte streams (`io.Reader`) are modelled as a list of chunks, one chunk per
successful `Read` call, followed by a terminal condition (end-of-stream, or a
read error carrying a message).  The optional `name` field models a reader
that additionally implements a `Name() string` method.  Machine integers do
not overflow in any modelled computation, so `Nat`/`Int` are used directly.
-/

deriving instance DecidableEq for Except

namespace GoOpenAI

/-- Model of a Go `io.Reader` (optionally with a `Name() string` method, as
checked by the type assertion `r.(interface{ Name() string })`).
`chunks` are the byte slices successive `Read` calls deliver; once they are
exhausted, `Read` reports end-of-stream when `terminal = none` and the error
`e` when `terminal = some e`. -/
structure Reader where
  chunks : List (List Nat)
  terminal : Option String
  name : Option String
deriving DecidableEq

/-- Result of one `Read` call: data delivered (with the reader's remaining
state), end-of-stream, or a read failure. -/
inductive ReadResult where
  | data (bytes : List Nat) (rest : Reader)
  | eof
  | fail (e : String)
deriving DecidableEq

/-- One `Read` into a buffer of capacity `cap`: delivers at most `cap` bytes
from the front of the first pending chunk. -/
def Reader.read (r : Reader) (cap : Nat) : ReadResult :=
  match r.chunks with
  | [] =>
    match r.terminal with
    | none => .eof
    | some e => .fail e
  | c :: cs =>
    .data (c.take cap) ⟨if c.length ≤ cap then cs else c.drop cap :: cs, r.terminal, r.name⟩

/-- Concatenation of every chunk: the byte sequence a full, successful drain
of the reader yields. -/
def flattenL : List (List Nat) → List Nat
  | [] => []
  | c :: cs => c ++ flattenL cs

/-- The reader's full byte content. -/
def Reader.content (r : Reader) : List Nat := flattenL r.chunks

/-- Model of `io.Copy(w, r)` as used by the form builder: reads `r` to the
end and returns all bytes, or the reader's error if its terminal condition is
a failure. -/
def copyAll (r : Reader) : Except String (List Nat) :=
  match r.terminal with
  | none => .ok r.content
  | some e => .error e

/-! ### Model of Go `net/http.DetectContentType` (sniff.go)

`detectMimeType` (src/image.go) delegates classification to the standard
library's `http.DetectContentType`; the signature table below transcribes
that routine's `sniffSignatures`. -/

/-- `isWS` from sniff.go: '\t', '\n', '\x0c', '\r', ' '. -/
def isWS (b : Nat) : Bool := b == 9 || b == 10 || b == 12 || b == 13 || b == 32

/-- `isTT` from sniff.go: tag-terminating bytes ' ' and '>'. -/
def isTT (b : Nat) : Bool := b == 32 || b == 62

/-- ASCII bytes of a Lean string literal (used to transcribe Go byte-string
literals in the signature table). -/
def strBytes (s : String) : List Nat := s.data.map Char.toNat

/-- Does `data` start with `pat`? (`bytes.HasPrefix(data, pat)`). -/
def hasPref : List Nat → List Nat → Bool
  | _, [] => true
  | [], _ :: _ => false
  | d :: ds, p :: ps => d == p && hasPref ds ps

/-- The loop of `maskedSig.match`: `data[i] & mask[i] == pat[i]` for every
pattern index, requiring `len(pat) == len(mask)` and `len(data) >= len(pat)`. -/
def maskedCheck : List Nat → List Nat → List Nat → Bool
  | [], [], _ => true
  | m :: ms, p :: ps, d :: ds => ((d &&& m) == p) && maskedCheck ms ps ds
  | _, _, _ => false

/-- The loop of `htmlSig.match`: compare data to the (uppercase-lettered)
pattern case-insensitively; return the data remaining after the pattern. -/
def htmlCheck : List Nat → List Nat → Option (List Nat)
  | [], ds => some ds
  | _ :: _, [] => none
  | b :: bs, d :: ds =>
    let db := if 65 ≤ b ∧ b ≤ 90 then d &&& 0xDF else d
    if b == db then htmlCheck bs ds else none

/-- The loop of `textSig.match`: no byte of the (whitespace-stripped) data may
be a binary control byte. -/
def textCheck : List Nat → Bool
  | [] => true
  | b :: bs =>
    if b ≤ 8 ∨ b = 11 ∨ (14 ≤ b ∧ b ≤ 26) ∨ (28 ≤ b ∧ b ≤ 31) then false else textCheck bs

/-- Big-endian uint32 of the first four bytes (`binary.BigEndian.Uint32`). -/
def be32 : List Nat → Nat
  | a :: b :: c :: d :: _ => ((a * 256 + b) * 256 + c) * 256 + d
  | _ => 0

/-- `mp4Sig.match` from sniff.go. -/
def mp4Match (data : List Nat) : String :=
  if data.length < 12 then ""
  else
    let boxSize := be32 data
    if data.length < boxSize ∨ boxSize % 4 ≠ 0 then ""
    else if (data.drop 4).take 4 == strBytes "ftyp" then
      if (List.range boxSize).any
          (fun st => decide (8 ≤ st) && st % 4 == 0 && st != 12 &&
            (data.drop st).take 3 == strBytes "mp4")
      then "video/mp4" else ""
    else ""

/-- A signature of sniff.go's `sniffSignatures` table. -/
inductive SniffSig where
  | exact (sig : List Nat) (ct : String)
  | masked (mask pat : List Nat) (skipWS : Bool) (ct : String)
  | html (pat : List Nat)
  | mp4
  | text

/-- `sig.match(data, firstNonWS)` for each signature kind. -/
def matchSig (data : List Nat) (fnws : Nat) : SniffSig → String
  | .exact sig ct => if hasPref data sig then ct else ""
  | .masked mask pat skipWS ct =>
    let d := if skipWS then data.drop fnws else data
    if maskedCheck mask pat d then ct else ""
  | .html pat =>
    match htmlCheck pat (data.drop fnws) with
    | some (t :: _) => if isTT t then "text/html; charset=utf-8" else ""
    | _ => ""
  | .mp4 => mp4Match data
  | .text => if textCheck (data.drop fnws) then "text/plain; charset=utf-8" else ""

/-- Transcription of `sniffSignatures` from Go's net/http/sniff.go. -/
def sniffSignatures : List SniffSig := [
  .html (strBytes "<!DOCTYPE HTML"),
  .html (strBytes "<HTML"),
  .html (strBytes "<HEAD"),
  .html (strBytes "<SCRIPT"),
  .html (strBytes "<IFRAME"),
  .html (strBytes "<H1"),
  .html (strBytes "<DIV"),
  .html (strBytes "<FONT"),
  .html (strBytes "<TABLE"),
  .html (strBytes "<A"),
  .html (strBytes "<STYLE"),
  .html (strBytes "<TITLE"),
  .html (strBytes "<B"),
  .html (strBytes "<BODY"),
  .html (strBytes "<BR"),
  .html (strBytes "<P"),
  .html (strBytes "<!--"),
  .masked [0xFF, 0xFF, 0xFF, 0xFF, 0xFF] (strBytes "<?xml") true "text/xml; charset=utf-8",
  .exact (strBytes "%PDF-") "application/pdf",
  .exact (strBytes "%!PS-Adobe-") "application/postscript",
  .masked [0xFF, 0xFF, 0, 0] [0xFE, 0xFF, 0, 0] false "text/plain; charset=utf-16be",
  .masked [0xFF, 0xFF, 0, 0] [0xFF, 0xFE, 0, 0] false "text/plain; charset=utf-16le",
  .masked [0xFF, 0xFF, 0xFF, 0] [0xEF, 0xBB, 0xBF, 0] false "text/plain; charset=utf-8",
  .exact [0, 0, 1, 0] "image/x-icon",
  .exact [0, 0, 2, 0] "image/x-icon",
  .exact (strBytes "BM") "image/bmp",
  .exact (strBytes "GIF87a") "image/gif",
  .exact (strBytes "GIF89a") "image/gif",
  .masked [0xFF, 0xFF, 0xFF, 0xFF, 0, 0, 0, 0, 0xFF, 0xFF, 0xFF, 0xFF, 0xFF, 0xFF]
    (strBytes "RIFF" ++ [0, 0, 0, 0] ++ strBytes "WEBPVP") false "image/webp",
  .exact ([0x89] ++ strBytes "PNG" ++ [0x0D, 0x0A, 0x1A, 0x0A]) "image/png",
  .exact [0xFF, 0xD8, 0xFF] "image/jpeg",
  .masked [0xFF, 0xFF, 0xFF, 0xFF] (strBytes ".snd") false "audio/basic",
  .masked [0xFF, 0xFF, 0xFF, 0xFF, 0, 0, 0, 0, 0xFF, 0xFF, 0xFF, 0xFF]
    (strBytes "FORM" ++ [0, 0, 0, 0] ++ strBytes "AIFF") false "audio/aiff",
  .masked [0xFF, 0xFF, 0xFF] (strBytes "ID3") false "audio/mpeg",
  .masked [0xFF, 0xFF, 0xFF, 0xFF, 0xFF] (strBytes "OggS" ++ [0]) false "application/ogg",
  .masked [0xFF, 0xFF, 0xFF, 0xFF, 0xFF, 0xFF, 0xFF, 0xFF]
    (strBytes "MThd" ++ [0, 0, 0, 6]) false "audio/midi",
  .masked [0xFF, 0xFF, 0xFF, 0xFF, 0, 0, 0, 0, 0xFF, 0xFF, 0xFF, 0xFF]
    (strBytes "RIFF" ++ [0, 0, 0, 0] ++ strBytes "AVI ") false "video/avi",
  .masked [0xFF, 0xFF, 0xFF, 0xFF, 0, 0, 0, 0, 0xFF, 0xFF, 0xFF, 0xFF]
    (strBytes "RIFF" ++ [0, 0, 0, 0] ++ strBytes "WAVE") false "audio/wave",
  .mp4,
  .exact [0x1A, 0x45, 0xDF, 0xA3] "video/webm",
  .masked (List.replicate 34 0 ++ [0xFF, 0xFF]) (List.replicate 34 0 ++ strBytes "LP")
    false "application/vnd.ms-fontobject",
  .exact [0, 1, 0, 0] "font/ttf",
  .exact (strBytes "OTTO") "font/otf",
  .exact (strBytes "ttcf") "font/collection",
  .exact (strBytes "wOFF") "font/woff",
  .exact (strBytes "wOF2") "font/woff2",
  .exact [0x1F, 0x8B, 8] "application/x-gzip",
  .exact (strBytes "PK" ++ [3, 4]) "application/zip",
  .exact (strBytes "Rar!" ++ [0x1A, 7, 0]) "application/x-rar-compressed",
  .exact (strBytes "Rar!" ++ [0x1A, 7, 1, 0]) "application/x-rar-compressed",
  .exact [0x00, 0x61, 0x73, 0x6D] "application/wasm",
  .text
]

/-- First signature whose match is non-empty, else the octet-stream fallback
(the loop plus final return of `DetectContentType`). -/
def matchFirst (data : List Nat) (fnws : Nat) : List SniffSig → String
  | [] => "application/octet-stream"
  | s :: ss =>
    let ct := matchSig data fnws s
    if ct = "" then matchFirst data fnws ss else ct

/-- Model of Go `http.DetectContentType`. -/
def DetectContentType (data0 : List Nat) : String :=
  let data := data0.take 512
  matchFirst data ((data.takeWhile isWS).length) sniffSignatures

/-! ### The form builder (src, DefaultFormBuilder) -/

/-- Reconstructed stream built by `detectMimeType`:
`io.MultiReader(strings.NewReader(string(buffer[:n])), r)` — yields the
sniffed bytes first, then whatever is left of `r`.  A `MultiReader` has no
`Name()` method. -/
def mkRecon (sniffed : List Nat) (rest : Reader) : Reader :=
  ⟨sniffed :: rest.chunks, rest.terminal, none⟩

/-- Model of `detectMimeType` (src/image.go): one `Read` into a 512-byte
buffer; a non-EOF failure aborts, EOF counts as a successful empty prefix;
the content type comes from `http.DetectContentType` on the bytes read. -/
def detectMimeType (r : Reader) : Except String (String × Reader) :=
  match r.read 512 with
  | .fail e => .error e
  | .eof => .ok (DetectContentType [], mkRecon [] r)
  | .data bs rest => .ok (DetectContentType bs, mkRecon bs rest)

/-- Per-character step of the `quoteEscaper` replacer:
backslash becomes double backslash, double quote becomes backslash-quote. -/
def escChar (c : Char) : List Char :=
  if c = '\\' then ['\\', '\\']
  else if c = '"' then ['\\', '"']
  else [c]

/-- `escChar` mapped over a character list. -/
def escList : List Char → List Char
  | [] => []
  | c :: cs => escChar c ++ escList cs

/-- Model of `escapeQuotes` (src):
`strings.NewReplacer("\\", "\\\\", "\"", "\\\"").Replace(s)`; both patterns
are single characters, so the replacer acts character-wise. -/
def escapeQuotes (s : String) : String := ⟨escList s.data⟩

/-- Standard unescaping of a quoted-string body: a backslash makes the next
character literal.  Used to state the round-trip property. -/
def unescapeList : List Char → List Char
  | [] => []
  | [c] => [c]
  | c :: d :: cs => if c = '\\' then d :: unescapeList cs else c :: unescapeList (d :: cs)

/-- String-level unescaping. -/
def unescapeQuotes (s : String) : String := ⟨unescapeList s.data⟩

/-- Character-list core of Go `path/filepath.Base` on unix: empty path gives
".", trailing separators are stripped, only the element after the last
remaining separator is kept, and an all-separator path gives "/". -/
def baseList (cs : List Char) : List Char :=
  if cs = [] then ['.']
  else if cs.reverse.dropWhile (fun c => c = '/') = [] then ['/']
  else ((cs.reverse.dropWhile (fun c => c = '/')).takeWhile (fun c => c ≠ '/')).reverse

/-- Model of Go `path/filepath.Base` on unix. -/
def filepathBase (s : String) : String := ⟨baseList s.data⟩

/-- One part of the multipart form.  A field part records the field's name
and value (`WriteField`).  A file part records the two strings placed into
its `Content-Disposition` header — `name="<dispName>"; filename="<dispFilename>"`,
already escaped exactly as emitted — alongside its `Content-Type` header (if
set) and its copied body bytes. -/
inductive Part where
  | field (name value : String)
  | file (dispName dispFilename : String) (contentType : Option String) (content : List Nat)
deriving DecidableEq

/-- The name a part answers to in its Content-Disposition header. -/
def partName : Part → String
  | .field n _ => n
  | .file dn _ _ _ => dn

/-- Does any part of the form carry this Content-Disposition name? -/
def hasName (ps : List Part) (n : String) : Bool := ps.any (fun p => partName p == n)

/-- The filename-defaulting switch of `CreateFormFileReaderWithMimeType`
(src): applied only when the filename is still empty. -/
def defaultFilename (mimeType : String) : String :=
  if mimeType = "image/png" then "image.png"
  else if mimeType = "image/jpeg" ∨ mimeType = "image/jpg" then "image.jpg"
  else if mimeType = "image/gif" then "image.gif"
  else if mimeType = "image/webp" then "image.webp"
  else if mimeType = "image/bmp" then "image.bmp"
  else if mimeType = "image/tiff" then "image.tiff"
  else "file.bin"

/-- Filename resolution of `CreateFormFileReaderWithMimeType` (src): an empty
filename is first replaced by the reader's `Name()` (when the reader has
one), and if still empty by the MIME-type default. -/
def resolveFilename (r : Reader) (filename mimeType : String) : String :=
  let f1 :=
    match r.name with
    | some nm => if filename = "" then nm else filename
    | none => filename
  if f1 = "" then defaultFilename mimeType else f1

/-- The file part `CreateFormFileReaderWithMimeType` emits: header values
`escapeQuotes(fieldname)` and `escapeQuotes(filepath.Base(filename))`, a
`Content-Type` header when the MIME type is non-empty, and the copied body. -/
def mkFilePart (fieldname : String) (r : Reader) (filename mimeType : String)
    (content : List Nat) : Part :=
  .file (escapeQuotes fieldname)
    (escapeQuotes (filepathBase (resolveFilename r filename mimeType)))
    (if mimeType = "" then none else some mimeType) content

/-- Model of `CreateFormFileReaderWithMimeType` (src) over the accumulated
part list.  `io.Copy` failing (reader error) aborts with that error; the
aborted form is discarded, so no part is recorded in the error case. -/
def createFormFileReaderWithMimeType (ps : List Part) (fieldname : String) (r : Reader)
    (filename mimeType : String) : Except String (List Part) :=
  match copyAll r with
  | .error e => .error e
  | .ok content => .ok (ps ++ [mkFilePart fieldname r filename mimeType content])

/-- Model of `CreateFormFileReader` (src): sniff the MIME type, wrapping a
sniff failure as `failed to detect MIME type: <cause>`, then delegate with
the reconstructed reader and detected type. -/
def createFormFileReader (ps : List Part) (fieldname : String) (r : Reader)
    (filename : String) : Except String (List Part) :=
  match detectMimeType r with
  | .error e => .error ("failed to detect MIME type: " ++ e)
  | .ok (mime, r2) => createFormFileReaderWithMimeType ps fieldname r2 filename mime

/-- Model of `createFormFile` (src): rejects an empty filename, then uses
`multipart.Writer.CreateFormFile`, whose header escapes the supplied filename
WITHOUT taking its base name and always sets
`Content-Type: application/octet-stream`. -/
def createFormFile (ps : List Part) (fieldname : String) (r : Reader)
    (filename : String) : Except String (List Part) :=
  if filename = "" then .error "filename cannot be empty"
  else
    match copyAll r with
    | .error e => .error e
    | .ok content =>
      .ok (ps ++ [.file (escapeQuotes fieldname) (escapeQuotes filename)
        (some "application/octet-stream") content])

/-- Model of `WriteField` (src): appends a field part.  Writing into the
in-memory `bytes.Buffer` backing the builder cannot fail, so this operation
is total. -/
def writeField (ps : List Part) (fieldname value : String) : List Part :=
  ps ++ [.field fieldname value]

/-! ### The image endpoints (src/image.go) -/

/-- `CreateImageModelGptImage1` (src). -/
def CreateImageModelGptImage1 : String := "gpt-image-1"

/-- `strconv.Itoa` applied to a Go `int`. -/
def itoa (i : Int) : String := toString i

/-- `ImageEditRequest` (src); the two `io.Reader` fields are modelled
readers, `Mask` being nilable. -/
structure ImageEditRequest where
  Image : Reader
  Mask : Option Reader
  Prompt : String
  Model : String
  N : Int
  Size : String
  ResponseFormat : String
  Quality : String
  User : String

/-- `ImageVariRequest` (src). -/
structure ImageVariRequest where
  Image : Reader
  Model : String
  N : Int
  Size : String
  ResponseFormat : String
  User : String

/-- The `if request.Mask != nil` block of `CreateEditImage`. -/
def maskStep (req : ImageEditRequest) (ps : List Part) : Except String (List Part) :=
  match req.Mask with
  | some m => createFormFileReader ps "mask" m ""
  | none => .ok ps

/-- The field-writing tail of `CreateEditImage` (src/image.go, after the
file parts): `prompt` always; `model` when non-empty; `n` and `size`
unconditionally; `response_format` and `quality` when non-empty AND the model
is not gpt-image-1; `user` when non-empty.  These writes go to the in-memory
buffer and cannot fail. -/
def editFields (req : ImageEditRequest) (p2 : List Part) : List Part :=
  let p3 := writeField p2 "prompt" req.Prompt
  let p4 := if req.Model = "" then p3 else writeField p3 "model" req.Model
  let p5 := writeField p4 "n" (itoa req.N)
  let p6 := writeField p5 "size" req.Size
  let p7 :=
    if req.ResponseFormat ≠ "" ∧ req.Model ≠ CreateImageModelGptImage1 then
      writeField p6 "response_format" req.ResponseFormat
    else p6
  let p8 :=
    if req.Quality ≠ "" ∧ req.Model ≠ CreateImageModelGptImage1 then
      writeField p7 "quality" req.Quality
    else p7
  if req.User = "" then p8 else writeField p8 "user" req.User

/-- Form construction performed by `CreateEditImage` (src/image.go), part by
part in source order (debug printing and the `*os.File` seek/stat probes have
no effect on the bytes of the form and are not modelled).  A `.error` result
means the Go function returned before `newRequest`/`sendRequest`: no HTTP
request is built or sent, and no form body exists. -/
def createEditImageParts (req : ImageEditRequest) : Except String (List Part) :=
  match createFormFileReader [] "image" req.Image "" with
  | .error e => .error e
  | .ok p1 =>
    match maskStep req p1 with
    | .error e => .error e
    | .ok p2 => .ok (editFields req p2)

/-- Form construction performed by `CreateVariImage` (src/image.go): the
image file part, then the fields `n`, `size` and `response_format`,
unconditionally. -/
def createVariImageParts (req : ImageVariRequest) : Except String (List Part) :=
  match createFormFileReader [] "image" req.Image "" with
  | .error e => .error e
  | .ok p1 =>
    .ok (writeField (writeField (writeField p1 "n" (itoa req.N)) "size" req.Size)
      "response_format" req.ResponseFormat)

/-- A PNG magic-number chunk. -/
def pngChunk : List Nat := [0x89, 80, 78, 71, 13, 10, 26, 10]

/-- One-chunk PNG reader. -/
def rPngW : Reader := ⟨[pngChunk], none, none⟩

/-! ### Helper lemmas -/

/-- The reconstructed reader's content is the sniffed bytes followed by the
remaining content. -/
theorem content_mkRecon (bs : List Nat) (rest : Reader) :
    (mkRecon bs rest).content = bs ++ rest.content := rfl

/-- Successful `createFormFileReaderWithMimeType` appends exactly one file
part built from the reader's full content. -/
theorem createFFR_withMime_ok {ps : List Part} {fn : String} {r : Reader}
    {f mt : String} {ps2 : List Part}
    (h : createFormFileReaderWithMimeType ps fn r f mt = .ok ps2) :
    ∃ content, copyAll r = .ok content ∧ ps2 = ps ++ [mkFilePart fn r f mt content] := by
  unfold createFormFileReaderWithMimeType at h
  split at h
  · exact Except.noConfusion h
  · next content heq =>
    injection h with h
    exact ⟨content, heq, h.symm⟩

/-- Successful `createFormFileReader` appends exactly one file part, whose
shape comes from the sniffed type and reconstructed reader. -/
theorem createFFR_ok {ps : List Part} {fn : String} {r : Reader} {f : String}
    {ps2 : List Part} (h : createFormFileReader ps fn r f = .ok ps2) :
    ∃ mt r2 content, detectMimeType r = .ok (mt, r2) ∧ copyAll r2 = .ok content ∧
      ps2 = ps ++ [mkFilePart fn r2 f mt content] := by
  unfold createFormFileReader at h
  split at h
  · exact Except.noConfusion h
  · next mt r2 heq =>
    obtain ⟨content, hc, hps⟩ := createFFR_withMime_ok h
    exact ⟨mt, r2, content, heq, hc, hps⟩

theorem hasName_append (a b : List Part) (n : String) :
    hasName (a ++ b) n = (hasName a n || hasName b n) := by
  simp [hasName]

theorem hasName_writeField (ps : List Part) (m v n : String) :
    hasName (writeField ps m v) n = (hasName ps n || (m == n)) := by
  simp [hasName, writeField, partName]

theorem hasName_filePart (ps : List Part) (fn : String) (r : Reader) (f mt : String)
    (content : List Nat) (n : String) :
    hasName (ps ++ [mkFilePart fn r f mt content]) n
      = (hasName ps n || (escapeQuotes fn == n)) := by
  simp [hasName, mkFilePart, partName]

theorem mem_writeField_self (ps : List Part) (m v : String) :
    Part.field m v ∈ writeField ps m v := by
  simp [writeField]

theorem mem_writeField_mono {x : Part} {ps : List Part} (m v : String) (h : x ∈ ps) :
    x ∈ writeField ps m v := by
  simp [writeField, h]

theorem mem_ite_writeField {x : Part} {ps : List Part} {c : Prop} [Decidable c]
    (m v : String) (h : x ∈ ps) : x ∈ (if c then writeField ps m v else ps) := by
  split
  · exact mem_writeField_mono m v h
  · exact h

theorem mem_ite_writeField2 {x : Part} {ps : List Part} {c : Prop} [Decidable c]
    (m v : String) (h : x ∈ ps) : x ∈ (if c then ps else writeField ps m v) := by
  split
  · exact h
  · exact mem_writeField_mono m v h

/-- Successful `createEditImageParts`: the two fallible file stages succeed
and the result is the field tail appended to them. -/
theorem createEditImageParts_ok {req : ImageEditRequest} {ps : List Part}
    (h : createEditImageParts req = .ok ps) :
    ∃ p1 p2, createFormFileReader [] "image" req.Image "" = .ok p1 ∧
      maskStep req p1 = .ok p2 ∧ ps = editFields req p2 := by
  unfold createEditImageParts at h
  split at h
  · exact Except.noConfusion h
  · next p1 heq1 =>
    split at h
    · exact Except.noConfusion h
    · next p2 heq2 =>
      injection h with h
      exact ⟨p1, p2, heq1, heq2, h.symm⟩

/-- After the image and optional mask stage, the only part names present are
"image" and "mask". -/
theorem hasName_fileStage {req : ImageEditRequest} {p1 p2 : List Part}
    (h1 : createFormFileReader [] "image" req.Image "" = .ok p1)
    (h2 : maskStep req p1 = .ok p2) (n : String)
    (hni : ("image" == n) = false) (hnm : ("mask" == n) = false) :
    hasName p2 n = false := by
  obtain ⟨mt, r2, content, _, _, hp1⟩ := createFFR_ok h1
  have himg : hasName p1 n = false := by
    subst hp1
    rw [hasName_filePart]
    simp [hasName, show escapeQuotes "image" = "image" from by decide, hni]
  unfold maskStep at h2
  split at h2
  · next m heqm =>
    obtain ⟨mt2, r3, content2, _, _, hp2⟩ := createFFR_ok h2
    subst hp2
    rw [hasName_filePart]
    simp [himg, show escapeQuotes "mask" = "mask" from by decide, hnm]
  · injection h2 with h2
    rw [← h2]
    exact himg

/-- All signatures failing forces the octet-stream fallback of
`DetectContentType`. -/
theorem matchFirst_all_empty (data : List Nat) (fnws : Nat) :
    ∀ sigs : List SniffSig, (∀ s ∈ sigs, matchSig data fnws s = "") →
      matchFirst data fnws sigs = "application/octet-stream" := by
  intro sigs
  induction sigs with
  | nil => intro _; rfl
  | cons s ss ih =>
    intro hall
    unfold matchFirst
    simp only [hall s (List.mem_cons_self s ss), if_pos]
    exact ih (fun x hx => hall x (List.mem_cons_of_mem s hx))

/-! ### Claim theorems -/

/-- C1: Sniff non-destructiveness — whenever `detectMimeType` succeeds, the
reconstructed reader it returns yields exactly the original stream's bytes
(the sniffed prefix first, then the unread remainder): nothing is lost,
duplicated or reordered. -/
theorem detectMimeType_nondestructive (r : Reader) (mime : String) (r2 : Reader)
    (h : detectMimeType r = .ok (mime, r2)) : r2.content = r.content := by
  rcases r with ⟨chunks, t, nm⟩
  rcases chunks with _ | ⟨c, cs⟩
  · rcases t with _ | e
    · simp only [detectMimeType, Reader.read, Except.ok.injEq, Prod.mk.injEq] at h
      obtain ⟨-, h2⟩ := h
      subst h2
      rfl
    · simp [detectMimeType, Reader.read] at h
  · simp only [detectMimeType, Reader.read, Except.ok.injEq, Prod.mk.injEq] at h
    obtain ⟨-, h2⟩ := h
    subst h2
    simp only [mkRecon, Reader.content, flattenL]
    by_cases hc : c.length ≤ 512
    · rw [if_pos hc, List.take_of_length_le hc]
    · rw [if_neg hc]
      show c.take 512 ++ (c.drop 512 ++ flattenL cs) = c ++ flattenL cs
      rw [← List.append_assoc, List.take_append_drop]

/-- Witness for C1 at a concrete two-chunk stream (the reconstructed reader
differs syntactically from the source but has the same content). -/
theorem detectMimeType_nondestructive_witness :
    (Reader.mk [[5, 200, 7], [8]] none none).content
      = (Reader.mk [[5, 200, 7], [8]] none (some "f")).content :=
  detectMimeType_nondestructive ⟨[[5, 200, 7], [8]], none, some "f"⟩
    "application/octet-stream" ⟨[[5, 200, 7], [8]], none, none⟩ (by decide)

/-- C10: `detectMimeType` performs a single `Read` into a 512-byte buffer, so
the chunk it sniffs holds at most 512 bytes, and two streams whose first
`Read` delivers the same bytes are assigned the same content type, whatever
their remaining content. -/
theorem detect_first_chunk_only :
    (∀ (r : Reader) (bs : List Nat) (rest : Reader),
      r.read 512 = .data bs rest → bs.length ≤ 512) ∧
    (∀ (r1 r2 : Reader) (bs : List Nat) (rest1 rest2 : Reader) (m1 m2 : String)
      (rr1 rr2 : Reader),
      r1.read 512 = .data bs rest1 → r2.read 512 = .data bs rest2 →
      detectMimeType r1 = .ok (m1, rr1) → detectMimeType r2 = .ok (m2, rr2) →
      m1 = m2) := by
  constructor
  · intro r bs rest h
    rcases r with ⟨chunks, t, nm⟩
    rcases chunks with _ | ⟨c, cs⟩
    · rcases t with _ | e <;> simp [Reader.read] at h
    · simp only [Reader.read, ReadResult.data.injEq] at h
      obtain ⟨h1, -⟩ := h
      subst h1
      simp only [List.length_take]
      omega
  · intro r1 r2 bs rest1 rest2 m1 m2 rr1 rr2 h1 h2 h3 h4
    unfold detectMimeType at h3 h4
    rw [h1] at h3
    rw [h2] at h4
    simp only [Except.ok.injEq, Prod.mk.injEq] at h3 h4
    rw [← h3.1, ← h4.1]

/-- Witness for C10: a bare JPEG prefix versus the same prefix followed by
more chunks and even a pending read error. -/
theorem detect_first_chunk_only_witness :
    ([0xFF, 0xD8, 0xFF] : List Nat).length ≤ 512 ∧ ("image/jpeg" : String) = "image/jpeg" :=
  ⟨detect_first_chunk_only.1 ⟨[[0xFF, 0xD8, 0xFF]], none, none⟩ [0xFF, 0xD8, 0xFF]
      ⟨[], none, none⟩ (by decide),
   detect_first_chunk_only.2 ⟨[[0xFF, 0xD8, 0xFF]], none, none⟩
      ⟨[[0xFF, 0xD8, 0xFF], [9, 9]], some "later", none⟩ [0xFF, 0xD8, 0xFF]
      ⟨[], none, none⟩ ⟨[[9, 9]], some "later", none⟩ "image/jpeg" "image/jpeg"
      (mkRecon [0xFF, 0xD8, 0xFF] ⟨[], none, none⟩)
      (mkRecon [0xFF, 0xD8, 0xFF] ⟨[[9, 9]], some "later", none⟩)
      (by decide) (by decide) (by decide) (by decide)⟩

/-- C7 counterexample: sniffing the EMPTY stream succeeds but yields
`text/plain; charset=utf-8` — a textual type, not a generic binary
(octet-stream) type as the claim states. -/
theorem sniff_empty_not_binary :
    detectMimeType ⟨[], none, none⟩
      = .ok ("text/plain; charset=utf-8", ⟨[[]], none, none⟩) ∧
    ("text/plain; charset=utf-8" : String) ≠ "application/octet-stream" :=
  ⟨by decide, by decide⟩

/-- C7 (amended): sniffing an empty stream succeeds and produces
`text/plain; charset=utf-8`; a first chunk matched by NO signature of the
sniff table (the trailing plain-text rule included) falls back to
`application/octet-stream`. -/
theorem sniff_empty_and_octet_fallback :
    (detectMimeType ⟨[], none, none⟩
      = .ok ("text/plain; charset=utf-8", ⟨[[]], none, none⟩)) ∧
    (∀ (r : Reader) (bs : List Nat) (rest : Reader), r.read 512 = .data bs rest →
      (∀ s ∈ sniffSignatures,
        matchSig (bs.take 512) (((bs.take 512).takeWhile isWS).length) s = "") →
      detectMimeType r = .ok ("application/octet-stream", mkRecon bs rest)) := by
  refine ⟨by decide, ?_⟩
  intro r bs rest h hall
  have hdct : DetectContentType bs = "application/octet-stream" := by
    unfold DetectContentType
    exact matchFirst_all_empty _ _ _ hall
  unfold detectMimeType
  rw [h]
  show Except.ok (DetectContentType bs, mkRecon bs rest)
      = Except.ok ("application/octet-stream", mkRecon bs rest)
  rw [hdct]

/-- Witness for C7's amendment: the single byte 0x01 matches no signature and
is classified as octet-stream. -/
theorem sniff_empty_and_octet_fallback_witness :
    detectMimeType ⟨[[1]], none, none⟩
      = .ok ("application/octet-stream", mkRecon [1] ⟨[], none, none⟩) :=
  sniff_empty_and_octet_fallback.2 ⟨[[1]], none, none⟩ [1] ⟨[], none, none⟩
    (by decide) (by decide)

/-- A reader whose terminal condition is a failure makes `io.Copy` fail with
that error. -/
theorem copyAll_err (r : Reader) (e : String) (h : r.terminal = some e) :
    copyAll r = .error e := by
  unfold copyAll
  rw [h]

/-- A copy-stage failure aborts `CreateFormFileReaderWithMimeType` with the
reader's error, unwrapped. -/
theorem createFFRWMT_fail (ps : List Part) (fn : String) (r : Reader) (f mt e : String)
    (h : r.terminal = some e) :
    createFormFileReaderWithMimeType ps fn r f mt = .error e := by
  unfold createFormFileReaderWithMimeType
  rw [copyAll_err r e h]

/-- On a stream with a pending chunk the sniff read succeeds, delivering at
most 512 bytes and the reconstructed reader. -/
theorem detectMimeType_cons (c : List Nat) (cs : List (List Nat)) (t : Option String)
    (nm : Option String) :
    detectMimeType ⟨c :: cs, t, nm⟩
      = .ok (DetectContentType (c.take 512),
          ⟨c.take 512 :: (if c.length ≤ 512 then cs else c.drop 512 :: cs), t, none⟩) := rfl

/-- Every failure of `CreateFormFileReader` on a reader with a failing
terminal, in both shapes: a first-read failure is wrapped as
`failed to detect MIME type: <cause>`, a failure after data has been
delivered surfaces unwrapped at the copy stage. -/
theorem createFFR_fail (ps : List Part) (fn : String) (r : Reader) (f e : String)
    (h : r.terminal = some e) :
    createFormFileReader ps fn r f
      = .error (if r.chunks = [] then "failed to detect MIME type: " ++ e else e) := by
  rcases r with ⟨chunks, t, nm⟩
  have ht : t = some e := h
  subst ht
  rcases chunks with _ | ⟨c, cs⟩
  · unfold createFormFileReader
    rw [show detectMimeType ⟨[], some e, nm⟩ = .error e from rfl]
    simp
  · unfold createFormFileReader
    rw [detectMimeType_cons c cs (some e) nm]
    show createFormFileReaderWithMimeType ps fn
        ⟨c.take 512 :: (if c.length ≤ 512 then cs else c.drop 512 :: cs), some e, none⟩ f
        (DetectContentType (c.take 512))
      = .error (if (c :: cs : List (List Nat)) = [] then "failed to detect MIME type: " ++ e else e)
    rw [createFFRWMT_fail _ _ _ _ _ e rfl]
    simp

/-- C8: a non-EOF failure of the sniff read makes `detectMimeType` fail with
the underlying cause; a reader failing at its terminal makes the file-part
operation fail — wrapped when the very first read fails, unwrapped when the
failure hits the copy stage after data was delivered; and EVERY error
returned by a builder file operation inside `CreateEditImage` (image or mask
stage) or `CreateVariImage` makes the endpoint return exactly that error
immediately — the `.error` result carries no parts, so no further part is
added and no HTTP request value exists to be built or sent (the remaining
builder operations, `WriteField`/`Close` on the in-memory buffer, cannot
fail). -/
theorem error_propagation :
    (∀ (e : String) (nm : Option String), detectMimeType ⟨[], some e, nm⟩ = .error e) ∧
    (∀ (ps : List Part) (fn : String) (r : Reader) (f e : String), r.terminal = some e →
      createFormFileReader ps fn r f
        = .error (if r.chunks = [] then "failed to detect MIME type: " ++ e else e)) ∧
    (∀ (req : ImageEditRequest) (e : String),
      createFormFileReader [] "image" req.Image "" = .error e →
      createEditImageParts req = .error e) ∧
    (∀ (req : ImageEditRequest) (p1 : List Part) (m : Reader) (e : String),
      createFormFileReader [] "image" req.Image "" = .ok p1 →
      req.Mask = some m →
      createFormFileReader p1 "mask" m "" = .error e →
      createEditImageParts req = .error e) ∧
    (∀ (req : ImageVariRequest) (e : String),
      createFormFileReader [] "image" req.Image "" = .error e →
      createVariImageParts req = .error e) := by
  refine ⟨fun e nm => rfl, createFFR_fail, ?_, ?_, ?_⟩
  · intro req e him
    unfold createEditImageParts
    rw [him]
  · intro req p1 m e h1 hm h2
    unfold createEditImageParts
    rw [h1]
    show (match maskStep req p1 with
          | .error e => .error e
          | .ok p2 => .ok (editFields req p2) : Except String (List Part)) = .error e
    unfold maskStep
    rw [hm]
    show (match createFormFileReader p1 "mask" m "" with
          | .error e => .error e
          | .ok p2 => .ok (editFields req p2) : Except String (List Part)) = .error e
    rw [h2]
  · intro req e him
    unfold createVariImageParts
    rw [him]

/-- Witness for C8: sniff-stage failures (wrapped) and copy-stage failures
(readers failing after delivering data, unwrapped), propagated through both
endpoints and through the mask stage. -/
theorem error_propagation_witness :
    detectMimeType ⟨[], some "boom", none⟩ = .error "boom" ∧
    createFormFileReader [] "image" ⟨[[1]], some "boom", none⟩ "" = .error "boom" ∧
    createFormFileReader [] "image" ⟨[], some "boom", none⟩ ""
      = .error ("failed to detect MIME type: " ++ "boom") ∧
    createEditImageParts ⟨⟨[[1]], some "boom", none⟩, none, "p", "", 1, "", "", "", ""⟩
      = .error "boom" ∧
    createEditImageParts ⟨rPngW, some ⟨[[2]], some "mask-err", none⟩, "p", "", 1, "", "", "", ""⟩
      = .error "mask-err" ∧
    createVariImageParts ⟨⟨[], some "boom", none⟩, "", 1, "", "", ""⟩
      = .error ("failed to detect MIME type: " ++ "boom") :=
  ⟨error_propagation.1 "boom" none,
   (error_propagation.2.1 [] "image" ⟨[[1]], some "boom", none⟩ "" "boom" rfl).trans (by decide),
   (error_propagation.2.1 [] "image" ⟨[], some "boom", none⟩ "" "boom" rfl).trans (by decide),
   error_propagation.2.2.1 _ "boom" (by decide),
   error_propagation.2.2.2.1 _ [Part.file "image" "image.png" (some "image/png") pngChunk]
     ⟨[[2]], some "mask-err", none⟩ "mask-err" (by decide) rfl (by decide),
   error_propagation.2.2.2.2 _ ("failed to detect MIME type: " ++ "boom") (by decide)⟩

/-- `takeWhile` collects exactly the leading block when everything before the
marker satisfies the predicate and the marker does not. -/
theorem takeWhile_stop {α : Type} (p : α → Bool) (l1 : List α) (a : α) (l2 : List α)
    (h1 : ∀ y ∈ l1, p y = true) (ha : p a = false) :
    (l1 ++ a :: l2).takeWhile p = l1 := by
  induction l1 with
  | nil => simp [List.takeWhile_cons, ha]
  | cons x xs ih =>
    have hx := h1 x (List.mem_cons_self x xs)
    simp [List.takeWhile_cons, hx, ih (fun y hy => h1 y (List.mem_cons_of_mem x hy))]

/-- `filepath.Base` drops every directory component: on `d ++ "/" ++ b` with
`b` a non-empty, separator-free final element, the base is `b`. -/
theorem baseList_split (d b : List Char) (hb : b ≠ []) (hs : '/' ∉ b) :
    baseList (d ++ '/' :: b) = b := by
  obtain ⟨x, xs, hxs⟩ : ∃ x xs, b.reverse = x :: xs := by
    rcases hbrev : b.reverse with _ | ⟨x, xs⟩
    · exact absurd (by simpa using congrArg List.reverse hbrev) hb
    · exact ⟨x, xs, rfl⟩
  have hxb : x ∈ b := by
    rw [← List.mem_reverse, hxs]
    exact List.mem_cons_self x xs
  have hx : ¬ x = '/' := fun hEq => hs (hEq ▸ hxb)
  have hrev : (d ++ '/' :: b).reverse = x :: (xs ++ '/' :: d.reverse) := by
    rw [List.reverse_append, List.reverse_cons, hxs]
    simp
  have hdrop : (d ++ '/' :: b).reverse.dropWhile (fun c => c = '/')
      = x :: (xs ++ '/' :: d.reverse) := by
    rw [hrev, List.dropWhile_cons]
    simp [hx]
  have hall : ∀ y ∈ x :: xs, (fun c => decide (c ≠ '/')) y = true := by
    intro y hy
    rw [← hxs, List.mem_reverse] at hy
    simp only [decide_eq_true_eq, ne_eq]
    exact fun hEq => hs (hEq ▸ hy)
  have htake := takeWhile_stop (fun c => decide (c ≠ '/')) (x :: xs) '/' d.reverse
    hall (by simp)
  unfold baseList
  rw [if_neg (by simp), hdrop, if_neg (by simp)]
  show ((x :: (xs ++ '/' :: d.reverse)).takeWhile (fun c => c ≠ '/')).reverse = b
  rw [show x :: (xs ++ '/' :: d.reverse) = (x :: xs) ++ '/' :: d.reverse from rfl,
    htake, ← hxs, List.reverse_reverse]

/-- C4 counterexample: `createFormFile` (reached through the builder's
`CreateFormFile`) hands the supplied filename to
`multipart.Writer.CreateFormFile`, which escapes it WITHOUT taking its base
name — the path `a/b/c.png` is emitted verbatim, not as `c.png`. -/
theorem createFormFile_keeps_path :
    createFormFile [] "file" ⟨[[9, 9]], none, none⟩ "a/b/c.png"
      = .ok [Part.file "file" "a/b/c.png" (some "application/octet-stream") [9, 9]] ∧
    ("a/b/c.png" : String) ≠ "c.png" :=
  ⟨by decide, by decide⟩

/-- C4 (amended): file parts emitted through
`CreateFormFileReaderWithMimeType` (and hence `CreateFormFileReader`) carry
the base name of the supplied filename, so `a/b/c.png` is emitted as `c.png`
there; file parts emitted through `createFormFile` keep the supplied filename
escaped but not base-named. -/
theorem filename_base_stripping (ps : List Part) (fn : String) (r : Reader)
    (mt f : String) (d b : List Char) (content : List Nat)
    (hf : f.data = d ++ '/' :: b) (hb : b ≠ []) (hs : '/' ∉ b)
    (hc : copyAll r = .ok content) :
    createFormFileReaderWithMimeType ps fn r f mt
      = .ok (ps ++ [Part.file (escapeQuotes fn) (escapeQuotes ⟨b⟩)
          (if mt = "" then none else some mt) content]) ∧
    (∀ g : String, g ≠ "" → createFormFile ps fn r g
      = .ok (ps ++ [Part.file (escapeQuotes fn) (escapeQuotes g)
          (some "application/octet-stream") content])) := by
  constructor
  · have hfe : ¬ f = "" := by
      intro h0
      rw [h0] at hf
      simp at hf
    have hres : resolveFilename r f mt = f := by
      cases hn : r.name <;> simp [resolveFilename, hn, hfe]
    have hbase : filepathBase f = ⟨b⟩ := by
      unfold filepathBase
      rw [hf]
      exact congrArg String.mk (baseList_split d b hb hs)
    unfold createFormFileReaderWithMimeType
    rw [hc]
    unfold mkFilePart
    rw [hres, hbase]
  · intro g hg
    unfold createFormFile
    rw [if_neg hg, hc]

/-- Witness for C4's amendment: `a/b/c.png` becomes `c.png` on the
reader-with-MIME-type path, and stays `a/b/c.png` on the `createFormFile`
path. -/
theorem filename_base_stripping_witness :
    createFormFileReaderWithMimeType [] "image" ⟨[[1]], none, none⟩ "a/b/c.png" "image/png"
      = .ok [Part.file "image" "c.png" (some "image/png") [1]] ∧
    createFormFile [] "image" ⟨[[1]], none, none⟩ "a/b/c.png"
      = .ok [Part.file "image" "a/b/c.png" (some "application/octet-stream") [1]] := by
  have h := filename_base_stripping [] "image" ⟨[[1]], none, none⟩ "image/png" "a/b/c.png"
    ['a', '/', 'b'] ['c', '.', 'p', 'n', 'g'] [1] (by decide) (by decide) (by decide)
    (by decide)
  exact ⟨h.1.trans (by decide), (h.2 "a/b/c.png" (by decide)).trans (by decide)⟩

/-- A character whose head is not a backslash unescapes to itself. -/
theorem unescapeList_cons_of_ne (c : Char) (l : List Char) (h : ¬ c = '\\') :
    unescapeList (c :: l) = c :: unescapeList l := by
  cases l with
  | nil => rfl
  | cons d ds => simp [unescapeList, h]

/-- Unescaping undoes the `quoteEscaper` escaping, character list level. -/
theorem unescape_escList (l : List Char) : unescapeList (escList l) = l := by
  induction l with
  | nil => rfl
  | cons c cs ih =>
    by_cases h1 : c = '\\'
    · subst h1
      show unescapeList ('\\' :: '\\' :: escList cs) = '\\' :: cs
      simp [unescapeList, ih]
    · by_cases h2 : c = '"'
      · subst h2
        show unescapeList ('\\' :: '"' :: escList cs) = '"' :: cs
        simp [unescapeList, ih]
      · show unescapeList (escChar c ++ escList cs) = c :: cs
        rw [show escChar c = [c] by simp [escChar, h1, h2]]
        show unescapeList (c :: escList cs) = c :: cs
        rw [unescapeList_cons_of_ne c _ h1, ih]

/-- C5: header-value escaping round-trips — unescaping inverts
`escapeQuotes` on every string (quotes and backslashes included), and every
file part emitted by `CreateFormFileReaderWithMimeType` carries header values
that unescape back to the field name and the base-named resolved filename. -/
theorem escape_roundtrip :
    (∀ s : String, unescapeQuotes (escapeQuotes s) = s) ∧
    (∀ (ps : List Part) (fn : String) (r : Reader) (f mt : String) (ps2 : List Part),
      createFormFileReaderWithMimeType ps fn r f mt = .ok ps2 →
      ∃ ct content,
        ps2 = ps ++ [Part.file (escapeQuotes fn)
          (escapeQuotes (filepathBase (resolveFilename r f mt))) ct content] ∧
        unescapeQuotes (escapeQuotes (filepathBase (resolveFilename r f mt)))
          = filepathBase (resolveFilename r f mt) ∧
        unescapeQuotes (escapeQuotes fn) = fn) := by
  have hrt : ∀ s : String, unescapeQuotes (escapeQuotes s) = s := by
    intro s
    show String.mk (unescapeList (escList s.data)) = s
    rw [unescape_escList]
  refine ⟨hrt, ?_⟩
  intro ps fn r f mt ps2 h
  obtain ⟨content, hc, hps⟩ := createFFR_withMime_ok h
  exact ⟨(if mt = "" then none else some mt), content, by rw [hps]; rfl, hrt _, hrt _⟩

/-- Witness for C5 on a filename containing a quote. -/
theorem escape_roundtrip_witness :
    unescapeQuotes (escapeQuotes "a\"b\\c") = "a\"b\\c" ∧
    (∃ ct content,
      ([Part.file "image" "we\\\"ird.png" (some "image/png") [1]] : List Part)
        = [] ++ [Part.file (escapeQuotes "image")
            (escapeQuotes (filepathBase
              (resolveFilename ⟨[[1]], none, none⟩ "we\"ird.png" "image/png"))) ct content] ∧
      unescapeQuotes (escapeQuotes (filepathBase
          (resolveFilename ⟨[[1]], none, none⟩ "we\"ird.png" "image/png")))
        = filepathBase (resolveFilename ⟨[[1]], none, none⟩ "we\"ird.png" "image/png") ∧
      unescapeQuotes (escapeQuotes "image") = "image") :=
  ⟨escape_roundtrip.1 "a\"b\\c",
   escape_roundtrip.2 [] "image" ⟨[[1]], none, none⟩ "we\"ird.png" "image/png"
     [Part.file "image" "we\\\"ird.png" (some "image/png") [1]] (by decide)⟩

/-- C6: with an empty filename and a reader without a `Name()` method, the
emitted filename comes from the fixed MIME-type table, `file.bin` for any
type outside it. -/
theorem default_filename_table (ps : List Part) (fn : String) (r : Reader)
    (mt : String) (content : List Nat)
    (hname : r.name = none) (hc : copyAll r = .ok content) :
    createFormFileReaderWithMimeType ps fn r "" mt
      = .ok (ps ++ [Part.file (escapeQuotes fn)
          (if mt = "image/png" then "image.png"
           else if mt = "image/jpeg" ∨ mt = "image/jpg" then "image.jpg"
           else if mt = "image/gif" then "image.gif"
           else if mt = "image/webp" then "image.webp"
           else if mt = "image/bmp" then "image.bmp"
           else if mt = "image/tiff" then "image.tiff"
           else "file.bin")
          (if mt = "" then none else some mt) content]) := by
  have hres : resolveFilename r "" mt = defaultFilename mt := by
    simp [resolveFilename, hname]
  have htab : escapeQuotes (filepathBase (defaultFilename mt))
      = (if mt = "image/png" then "image.png"
         else if mt = "image/jpeg" ∨ mt = "image/jpg" then "image.jpg"
         else if mt = "image/gif" then "image.gif"
         else if mt = "image/webp" then "image.webp"
         else if mt = "image/bmp" then "image.bmp"
         else if mt = "image/tiff" then "image.tiff"
         else "file.bin") := by
    unfold defaultFilename
    split_ifs <;> decide
  unfold createFormFileReaderWithMimeType
  rw [hc]
  unfold mkFilePart
  rw [hres, htab]

/-- Witness for C6: sniffed type `image/webp`, empty filename, unnamed
reader. -/
theorem default_filename_table_witness :
    createFormFileReaderWithMimeType [] "image" ⟨[[1, 2]], none, none⟩ "" "image/webp"
      = .ok [Part.file "image" "image.webp" (some "image/webp") [1, 2]] := by
  have h := default_filename_table [] "image" ⟨[[1, 2]], none, none⟩ "image/webp" [1, 2]
    rfl (by decide)
  exact h.trans (by decide)

/-- C9 counterexample: a reader whose `Name()` returns the EMPTY string does
not get its name used — the MIME-type default table wins (`image.png`), where
using the empty name would base-name it to `.`. -/
theorem empty_name_falls_to_table :
    createFormFileReaderWithMimeType [] "image" ⟨[[1, 2]], none, some ""⟩ "" "image/png"
      = .ok [Part.file "image" "image.png" (some "image/png") [1, 2]] ∧
    escapeQuotes (filepathBase "") = "." ∧
    ("image.png" : String) ≠ "." :=
  ⟨by decide, by decide, by decide⟩

/-- C9 (amended): with an empty supplied filename, a NON-empty `Name()`
result is used as the filename (then base-named and escaped), taking
precedence over the type table; an empty `Name()` falls through to the
table; a non-empty supplied filename is never overridden, whatever the
reader's name. -/
theorem named_reader_filename (ps : List Part) (fn : String) (r : Reader)
    (nm f mt : String) (content : List Nat) (hc : copyAll r = .ok content) :
    (r.name = some nm → nm ≠ "" →
      createFormFileReaderWithMimeType ps fn r "" mt
        = .ok (ps ++ [Part.file (escapeQuotes fn) (escapeQuotes (filepathBase nm))
            (if mt = "" then none else some mt) content])) ∧
    (f ≠ "" →
      createFormFileReaderWithMimeType ps fn r f mt
        = .ok (ps ++ [Part.file (escapeQuotes fn) (escapeQuotes (filepathBase f))
            (if mt = "" then none else some mt) content])) := by
  constructor
  · intro hn hnm
    have hres : resolveFilename r "" mt = nm := by
      simp [resolveFilename, hn, hnm]
    unfold createFormFileReaderWithMimeType
    rw [hc]
    unfold mkFilePart
    rw [hres]
  · intro hfne
    have hres : resolveFilename r f mt = f := by
      cases hn : r.name <;> simp [resolveFilename, hn, hfne]
    unfold createFormFileReaderWithMimeType
    rw [hc]
    unfold mkFilePart
    rw [hres]

/-- Witness for C9's amendment: a named reader with `Name() = "photo.png"`
wins over the `image/gif` table entry; a supplied `user.png` wins over the
name. -/
theorem named_reader_filename_witness :
    createFormFileReaderWithMimeType [] "image" ⟨[[1, 2]], none, some "photo.png"⟩ "" "image/gif"
      = .ok [Part.file "image" "photo.png" (some "image/gif") [1, 2]] ∧
    createFormFileReaderWithMimeType [] "image" ⟨[[1, 2]], none, some "photo.png"⟩
        "user.png" "image/gif"
      = .ok [Part.file "image" "user.png" (some "image/gif") [1, 2]] := by
  have h := named_reader_filename [] "image" ⟨[[1, 2]], none, some "photo.png"⟩
    "photo.png" "user.png" "image/gif" [1, 2] (by decide)
  exact ⟨(h.1 rfl (by decide)).trans (by decide), (h.2 (by decide)).trans (by decide)⟩

/-- C2: model-aware omission in `CreateEditImage` — with model `gpt-image-1`
no `response_format` and no `quality` part is written even when the request
carries non-empty values; with any other model, non-empty `ResponseFormat`
and `Quality` are written as the corresponding fields. -/
theorem createEditImage_model_policy (req : ImageEditRequest) (ps : List Part)
    (h : createEditImageParts req = .ok ps) :
    (req.Model = CreateImageModelGptImage1 →
      hasName ps "response_format" = false ∧ hasName ps "quality" = false) ∧
    (req.Model ≠ CreateImageModelGptImage1 →
      (req.ResponseFormat ≠ "" → Part.field "response_format" req.ResponseFormat ∈ ps) ∧
      (req.Quality ≠ "" → Part.field "quality" req.Quality ∈ ps)) := by
  obtain ⟨p1, p2, h1, h2, hps⟩ := createEditImageParts_ok h
  subst hps
  constructor
  · intro hM
    have hrf : hasName p2 "response_format" = false :=
      hasName_fileStage h1 h2 _ (by decide) (by decide)
    have hq : hasName p2 "quality" = false :=
      hasName_fileStage h1 h2 _ (by decide) (by decide)
    constructor
    · simp only [editFields]
      split_ifs <;> simp_all [hasName_writeField, CreateImageModelGptImage1]
    · simp only [editFields]
      split_ifs <;> simp_all [hasName_writeField, CreateImageModelGptImage1]
  · intro hM
    constructor
    · intro hRF
      simp only [editFields]
      apply mem_ite_writeField2
      apply mem_ite_writeField
      rw [if_pos ⟨hRF, hM⟩]
      exact mem_writeField_self _ _ _
    · intro hQ
      simp only [editFields]
      apply mem_ite_writeField2
      rw [if_pos ⟨hQ, hM⟩]
      exact mem_writeField_self _ _ _

/-- A gpt-image-1 edit request supplying non-empty ResponseFormat and
Quality. -/
def editReqG : ImageEditRequest :=
  ⟨rPngW, none, "a cat", "gpt-image-1", 1, "1024x1024", "url", "high", ""⟩

/-- The form parts built for `editReqG`. -/
def editPartsG : List Part :=
  [.file "image" "image.png" (some "image/png") pngChunk,
   .field "prompt" "a cat", .field "model" "gpt-image-1", .field "n" "1",
   .field "size" "1024x1024"]

/-- A dall-e-2 edit request supplying non-empty ResponseFormat and Quality. -/
def editReqD : ImageEditRequest :=
  ⟨rPngW, none, "a cat", "dall-e-2", 1, "512x512", "url", "hd", ""⟩

/-- The form parts built for `editReqD`. -/
def editPartsD : List Part :=
  [.file "image" "image.png" (some "image/png") pngChunk,
   .field "prompt" "a cat", .field "model" "dall-e-2", .field "n" "1",
   .field "size" "512x512", .field "response_format" "url", .field "quality" "hd"]

/-- Witness for C2 at the two concrete requests. -/
theorem createEditImage_model_policy_witness :
    (hasName editPartsG "response_format" = false ∧ hasName editPartsG "quality" = false) ∧
    (Part.field "response_format" "url" ∈ editPartsD ∧ Part.field "quality" "hd" ∈ editPartsD) :=
  ⟨(createEditImage_model_policy editReqG editPartsG (by decide)).1 (by decide),
   ⟨((createEditImage_model_policy editReqD editPartsD (by decide)).2 (by decide)).1 (by decide),
    ((createEditImage_model_policy editReqD editPartsD (by decide)).2 (by decide)).2 (by decide)⟩⟩

/-- A variation request with every optional value absent (N = 0, empty
strings). -/
def variReqEmpty : ImageVariRequest := ⟨⟨[[1, 2]], none, none⟩, "", 0, "", "", ""⟩

/-- The form parts built for `variReqEmpty`: the empty and zero values ARE
written. -/
def variPartsEmpty : List Part :=
  [.file "image" "file.bin" (some "application/octet-stream") [1, 2],
   .field "n" "0", .field "size" "", .field "response_format" ""]

/-- C3 counterexample: `CreateVariImage` writes `n`, `size` and
`response_format` unconditionally — a request with N = 0 and empty Size and
ResponseFormat still yields parts `n=0`, `size=` and `response_format=` in
the encoded form, contradicting the claim that absent optional values never
appear. -/
theorem createVariImage_emits_empty_optionals :
    createVariImageParts variReqEmpty = .ok variPartsEmpty ∧
    Part.field "n" "0" ∈ variPartsEmpty ∧
    Part.field "size" "" ∈ variPartsEmpty ∧
    Part.field "response_format" "" ∈ variPartsEmpty :=
  ⟨by decide, by decide, by decide, by decide⟩

/-- C3 (amended): in `CreateEditImage` the optional fields `model`, `user`,
`response_format` and `quality` are omitted when their value is empty, but
`n` and `size` are always written (as "0" resp. the empty string when
absent); in `CreateVariImage` the fields `n`, `size` and `response_format`
are always written whatever their values. -/
theorem optional_field_policy (reqE : ImageEditRequest) (psE : List Part)
    (reqV : ImageVariRequest) (psV : List Part)
    (hE : createEditImageParts reqE = .ok psE)
    (hV : createVariImageParts reqV = .ok psV) :
    ((reqE.Model = "" → hasName psE "model" = false) ∧
     (reqE.User = "" → hasName psE "user" = false) ∧
     (reqE.ResponseFormat = "" → hasName psE "response_format" = false) ∧
     (reqE.Quality = "" → hasName psE "quality" = false) ∧
     Part.field "n" (itoa reqE.N) ∈ psE ∧
     Part.field "size" reqE.Size ∈ psE) ∧
    (Part.field "n" (itoa reqV.N) ∈ psV ∧
     Part.field "size" reqV.Size ∈ psV ∧
     Part.field "response_format" reqV.ResponseFormat ∈ psV) := by
  obtain ⟨p1, p2, h1, h2, hps⟩ := createEditImageParts_ok hE
  subst hps
  have hmb : ∀ n, ("image" == n) = false → ("mask" == n) = false → hasName p2 n = false :=
    fun n hi hm => hasName_fileStage h1 h2 n hi hm
  refine ⟨⟨?_, ?_, ?_, ?_, ?_, ?_⟩, ?_⟩
  · intro h0
    have := hmb "model" (by decide) (by decide)
    simp only [editFields]
    split_ifs <;> simp_all [hasName_writeField]
  · intro h0
    have := hmb "user" (by decide) (by decide)
    simp only [editFields]
    split_ifs <;> simp_all [hasName_writeField]
  · intro h0
    have := hmb "response_format" (by decide) (by decide)
    simp only [editFields]
    split_ifs <;> simp_all [hasName_writeField]
  · intro h0
    have := hmb "quality" (by decide) (by decide)
    simp only [editFields]
    split_ifs <;> simp_all [hasName_writeField]
  · simp only [editFields]
    apply mem_ite_writeField2
    apply mem_ite_writeField
    apply mem_ite_writeField
    apply mem_writeField_mono
    exact mem_writeField_self _ _ _
  · simp only [editFields]
    apply mem_ite_writeField2
    apply mem_ite_writeField
    apply mem_ite_writeField
    exact mem_writeField_self _ _ _
  · unfold createVariImageParts at hV
    split at hV
    · exact Except.noConfusion hV
    · next p1v heq =>
      injection hV with hV
      subst hV
      exact ⟨mem_writeField_mono _ _ (mem_writeField_mono _ _ (mem_writeField_self _ _ _)),
        mem_writeField_mono _ _ (mem_writeField_self _ _ _),
        mem_writeField_self _ _ _⟩

/-- An edit request with every optional value absent. -/
def editReqEmpty : ImageEditRequest := ⟨rPngW, none, "p", "", 0, "", "", "", ""⟩

/-- The form parts built for `editReqEmpty`. -/
def editPartsEmpty : List Part :=
  [.file "image" "image.png" (some "image/png") pngChunk,
   .field "prompt" "p", .field "n" "0", .field "size" ""]

/-- Witness for C3's amendment at concrete all-empty requests. -/
theorem optional_field_policy_witness :
    hasName editPartsEmpty "model" = false ∧
    hasName editPartsEmpty "user" = false ∧
    hasName editPartsEmpty "response_format" = false ∧
    hasName editPartsEmpty "quality" = false ∧
    Part.field "n" (itoa 0) ∈ editPartsEmpty ∧
    Part.field "size" "" ∈ editPartsEmpty ∧
    Part.field "n" (itoa 0) ∈ variPartsEmpty := by
  have h := optional_field_policy editReqEmpty editPartsEmpty variReqEmpty variPartsEmpty
    (by decide) (by decide)
  exact ⟨h.1.1 rfl, h.1.2.1 rfl, h.1.2.2.1 rfl, h.1.2.2.2.1 rfl,
    h.1.2.2.2.2.1, h.1.2.2.2.2.2, h.2.1⟩

end GoOpenAI
